import Mathlib

/-!
# Verification of `scripts/generate_readme.py`

A shallow embedding of the README/report generator of whisperkittools.
Python strings are modelled as `List Char`, Python `float` arithmetic as
exact rational arithmetic (`ℚ`), with Python 3 `round` modelled as exact
round-half-to-even, and every fallible operation (a Python exception)
returns `Option`/`none`.
-/

namespace GenerateReadme

/-- Python `str.split(sep)` / `str.rsplit(sep)` for a one-character
separator and no maxsplit (both are the same function in that case):
splits into the (always non-empty) list of segments between occurrences
of the separator.  `"".split(sep) == [""]` holds as in Python. -/
def splitOnChar (c : Char) : List Char → List (List Char)
  | [] => [[]]
  | x :: xs =>
    match splitOnChar c xs with
    | [] => [[x]]
    | y :: ys => if x = c then [] :: y :: ys else (x :: y) :: ys

/-- Round-half-to-even of a rational to an integer: the exact counterpart
of Python 3 `round` (banker's rounding), used to model `round(x, 3)`. -/
def roundHalfEven (q : ℚ) : ℤ :=
  let f := ⌊q⌋
  if q - f < 1/2 then f
  else if 1/2 < q - f then f + 1
  else if f % 2 = 0 then f else f + 1

/-- Python `round(q, 3)` on exact rationals: round half to even at the
third decimal place. -/
def rround3 (q : ℚ) : ℚ := (roundHalfEven (q * 1000) : ℚ) / 1000

/-- One per-example entry of an evaluation record's `results` list.  The
report generator only reads `result["wer"]` (the metric used by
`compute_quality_of_inference`); the transcript text fields feed the
external WER library, which is out of scope. -/
structure EvalResult where
  wer : ℚ
deriving DecidableEq, Repr

/-- Embedding of `compute_quality_of_inference(reference, optimized, metric="wer")`:
iterates over `zip(reference, optimized)` counting no-regressions
(`opt[metric] <= ref[metric]`), improvements (`opt[metric] < ref[metric]`)
and the pair count, then returns
`(round(no_regression / count, 3) * 100, round(improved / count, 3) * 100)`.
`none` models the `ZeroDivisionError` raised when `count == 0`. -/
def compute_quality_of_inference (reference optimized : List EvalResult) :
    Option (ℚ × ℚ) :=
  let acc :=
    (reference.zip optimized).foldl
      (fun acc p =>
        (acc.1 + (if p.2.wer ≤ p.1.wer then 1 else 0),
         acc.2.1 + (if p.2.wer < p.1.wer then 1 else 0),
         acc.2.2 + 1))
      ((0 : ℕ), (0 : ℕ), (0 : ℕ))
  if acc.2.2 = 0 then none
  else some (rround3 ((acc.1 : ℚ) / (acc.2.2 : ℚ)) * 100,
             rround3 ((acc.2.1 : ℚ) / (acc.2.2 : ℚ)) * 100)

/-- The `default_code_repo="WhisperKit"` default of `parse_name`. -/
def defaultCodeRepo : List Char := ("WhisperKit").toList

/-- Embedding of `parse_name(result)`: `result.rsplit("/")`; one token uses the default
repository and the whole string as model, two tokens are
(repository, model), anything else raises `ValueError` (`none`). -/
def parse_name (result : List Char) : Option (List Char × List Char) :=
  match splitOnChar '/' result with
  | [_] => some (defaultCodeRepo, result)
  | [a, b] => some (a, b)
  | _ => none

/-- Helper for `replaceSub`, structurally recursive on a fuel argument
(the fuel, initially the length of the subject string, never runs out:
each step consumes at least one subject character). -/
def replaceSubFuel (p r : List Char) : ℕ → List Char → List Char
  | _, [] => []
  | 0, s => s
  | fuel + 1, x :: xs =>
    if p ≠ [] ∧ p.isPrefixOf (x :: xs) then
      r ++ replaceSubFuel p r fuel (List.drop p.length (x :: xs))
    else
      x :: replaceSubFuel p r fuel xs

/-- Python `s.replace(p, r)` for a non-empty pattern `p`: scans left to
right replacing non-overlapping occurrences.  (An empty pattern, which
Python treats specially, never occurs in the source.) -/
def replaceSub (p r s : List Char) : List Char :=
  replaceSubFuel p r s.length s

/-- Parse a non-empty all-digit string as a natural number
(the digits part of Python `int(...)`). -/
def parseDigits (s : List Char) : Option ℕ :=
  if s ≠ [] ∧ s.all (fun c => c.isDigit) then
    some (s.foldl (fun acc c => 10 * acc + (c.toNat - ('0').toNat)) 0)
  else none

/-- Python `int(s)` on a decimal string literal: optional sign followed by
digits; anything else raises `ValueError` (`none`). -/
def parseInt (s : List Char) : Option ℤ :=
  match s with
  | '-' :: rest => (parseDigits rest).map (fun n => -(n : ℤ))
  | '+' :: rest => (parseDigits rest).map (fun n => (n : ℤ))
  | _ => (parseDigits s).map (fun n => (n : ℤ))

/-- A value of the "File Size (MB)" column: either a number of megabytes
or the string `"N/A"`. -/
inductive FileSize where
  | mb (size : ℤ)
  | na
deriving DecidableEq, Repr

/-- The static file-size lookup table `REFERENCE_MODEL_FILE_SIZES`. -/
def REFERENCE_MODEL_FILE_SIZES : List (List Char × ℤ) := [
  (("WhisperKit/openai_whisper-large-v2").toList, 3100),
  (("WhisperKit/openai_whisper-large-v2_turbo").toList, 3100),
  (("WhisperKit/openai_whisper-large-v3").toList, 3100),
  (("WhisperKit/openai_whisper-large-v3_turbo").toList, 3100),
  (("WhisperKit/openai_whisper-small").toList, 483),
  (("WhisperKit/openai_whisper-small.en").toList, 483),
  (("WhisperKit/openai_whisper-base").toList, 145),
  (("WhisperKit/openai_whisper-base.en").toList, 145),
  (("WhisperKit/openai_whisper-tiny").toList, 66),
  (("WhisperKit/openai_whisper-tiny.en").toList, 66),
  (("whisper.cpp/openai_whisper-large-v2-q5_0").toList, 1080),
  (("whisper.cpp/openai_whisper-large-v3-q5_0").toList, 1080),
  (("whisper.cpp/openai_whisper-large-v3").toList, 3100),
  (("whisper.cpp/openai_whisper-large-v2").toList, 3100),
  (("WhisperOpenAIAPI/openai_whisper-large-v2").toList, 3100),
  (("WhisperKit/distil-whisper_distil-large-v3").toList, 1510),
  (("WhisperKit/distil-whisper_distil-large-v3_turbo").toList, 1510)]

/-- The two-character tag `"MB"`. -/
def mbTag : List Char := ("MB").toList

/-- Python substring containment `p in s`. -/
def containsSub (p : List Char) : List Char → Bool
  | [] => p.isPrefixOf []
  | x :: xs => p.isPrefixOf (x :: xs) || containsSub p xs

/-- The file-size resolution for an optimized identifier (cli lines
253-263): table lookup, else take `optimized.rsplit("_")[-1]`; if `"MB"`
occurs anywhere in that suffix, `int(suffix.replace("MB", ""))` — whose
`ValueError` on a non-numeric remainder is `none` and propagates — else
the string `"N/A"`. -/
def resolve_file_size (optimized : List Char) : Option FileSize :=
  match REFERENCE_MODEL_FILE_SIZES.lookup optimized with
  | some n => some (FileSize.mb n)
  | none =>
    let suffix := (splitOnChar '_' optimized).getLastD []
    if containsSub mbTag suffix then
      (parseInt (replaceSub mbTag [] suffix)).map FileSize.mb
    else some FileSize.na

/-- The file-size resolution as claim C2 words it: table lookup, else if
the trailing underscore-separated suffix has the form `<N>MB` (digits
followed by `MB`) use `N`, else `"N/A"`; never a failure. -/
def file_size_claimed (optimized : List Char) : FileSize :=
  match REFERENCE_MODEL_FILE_SIZES.lookup optimized with
  | some n => FileSize.mb n
  | none =>
    let suffix := (splitOnChar '_' optimized).getLastD []
    match (if mbTag.isSuffixOf suffix then parseDigits (suffix.take (suffix.length - 2)) else none) with
    | some n => FileSize.mb (n : ℤ)
    | none => FileSize.na

/-- Field `metadata.inference_context.code_spec` of an evaluation record. -/
structure CodeSpec where
  code_commit_hash : Option (List Char)
deriving DecidableEq, Repr

/-- Field `metadata.inference_context.os_spec` of an evaluation record. -/
structure OsSpec where
  os_build_number : Option (List Char)
deriving DecidableEq, Repr

/-- Field `metadata.inference_context` of an evaluation record. -/
structure InferenceContext where
  code_spec : CodeSpec
  os_spec : OsSpec
deriving DecidableEq, Repr

/-- Field `metadata` of an evaluation record. -/
structure EvalMetadata where
  inference_context : InferenceContext
  whisperkittools_commit_hash : Option (List Char)
deriving DecidableEq, Repr

/-- An evaluation record fetched by `get_latest_eval`: its `results` list
and the metadata fields the script reads. -/
structure EvalRecord where
  results : List EvalResult
  metadata : EvalMetadata
deriving DecidableEq, Repr

/-- Embedding of `verify_apples_to_apples(reference_eval, optimized_eval)`: compares
the code commit hash, the OS build number and the whisperkittools commit
hash pairwise, emitting one logged warning per mismatch.  The function is
total: its value is the list of warnings, and it raises nothing. -/
def verify_apples_to_apples (reference_eval optimized_eval : EvalRecord) :
    List (List Char) :=
  (if reference_eval.metadata.inference_context.code_spec.code_commit_hash ≠
      optimized_eval.metadata.inference_context.code_spec.code_commit_hash then
    [("Reference and optimized evals were not generated with the same code commit!").toList]
  else []) ++
  (if reference_eval.metadata.inference_context.os_spec.os_build_number ≠
      optimized_eval.metadata.inference_context.os_spec.os_build_number then
    [("Reference and optimized evals were not generated with the same OS version!").toList]
  else []) ++
  (if reference_eval.metadata.whisperkittools_commit_hash ≠
      optimized_eval.metadata.whisperkittools_commit_hash then
    [("Reference and optimized evals were not generated with the same whisperkittools commit").toList]
  else [])

/-- Modelled from the spec: the model-hub repository id `MODEL_REPO_ID`
is imported from `whisperkit._constants`, a module not present in the
provided source.  The spec only says labels link to "its model-hub page",
so the concrete value is a fixed opaque string; no claim depends on it. -/
def MODEL_REPO_ID : List Char := ("argmaxinc/whisperkit-coreml").toList

/-- The static `REPO_URLS` table. -/
def REPO_URLS : List (List Char × List Char) := [
  (("whisper.cpp").toList, ("https://github.com/ggerganov/whisper.cpp").toList),
  (("WhisperKit").toList, ("https://github.com/argmaxinc/WhisperKit").toList)]

/-- Embedding of `get_model_link(model_version)`. -/
def get_model_link (model_version : List Char) : List Char :=
  ("https://hf.co/").toList ++ MODEL_REPO_ID ++ ("/tree/main/").toList ++ model_version

/-- The prefix `"openai_whisper-"` stripped from row labels. -/
def openaiTag : List Char := ("openai_whisper-").toList

/-- The prefix `"distil-whisper_"` stripped from row labels. -/
def distilTag : List Char := ("distil-whisper_").toList

/-- The raw row label:
`identifier.rsplit('/')[-1].replace('openai_whisper-', '').replace('distil-whisper_', '')`. -/
def strip_key (identifier : List Char) : List Char :=
  replaceSub distilTag []
    (replaceSub openaiTag [] ((splitOnChar '/' identifier).getLastD []))

/-- The decorated row label: rows of the `WhisperKit` repository render as
a markdown link to the model-hub page, others as `label (repository)`. -/
def mkKey (identifier code_repo model : List Char) : List Char :=
  if code_repo = ("WhisperKit").toList then
    ('[' :: strip_key identifier) ++ (']' :: '(' :: get_model_link model) ++ [')', ' ']
  else
    strip_key identifier ++ (' ' :: '(' :: code_repo) ++ [')']

/-- The "Code Commit" cell: `"N/A"` when the commit hash is null, else a
markdown link built from `REPO_URLS[code_repo]` and the first 7 hash
characters — a repository absent from `REPO_URLS` raises `KeyError`
(`none`). -/
def commit_cell (ev : EvalRecord) (code_repo : List Char) : Option (List Char) :=
  match ev.metadata.inference_context.code_spec.code_commit_hash with
  | some h =>
    (REPO_URLS.lookup code_repo).map
      (fun url => ("[Link](").toList ++ url ++ ("/commit/").toList ++ h.take 7 ++ [')'])
  | none => some (("N/A").toList)

/-- One row of a comparison table.  The WER cell is produced by the
external `evaluate` library and is out of scope, so it is not modelled. -/
structure Row where
  key : List Char
  qoi : ℚ
  file_size : FileSize
  commit : List Char
deriving DecidableEq, Repr

/-- Processing of one successfully fetched optimized record (cli lines
234-263): `verify_apples_to_apples` (warnings only), the QoI, the commit
cell and the file size, in source order; `none` is any raised exception,
which aborts the run. -/
def mkRow (reference_eval : EvalRecord) (optimized code_repo model : List Char)
    (optimized_eval : EvalRecord) : Option Row :=
  let _warnings := verify_apples_to_apples reference_eval optimized_eval
  match compute_quality_of_inference reference_eval.results optimized_eval.results with
  | none => none
  | some qoi =>
    match commit_cell optimized_eval code_repo with
    | none => none
    | some commit =>
      match resolve_file_size optimized with
      | none => none
      | some fs => some ⟨mkKey optimized code_repo model, qoi.1, fs, commit⟩

/-- The full treatment of one optimized identifier when its fetch
succeeds: parse, fetch, then `mkRow`. -/
def processOpt (fetch : List Char → Option EvalRecord) (reference_eval : EvalRecord)
    (optimized : List Char) : Option Row :=
  match parse_name optimized with
  | none => none
  | some (code_repo, model) =>
    match fetch optimized with
    | none => none
    | some ev => mkRow reference_eval optimized code_repo model ev

/-- The dict-assignment `results_dict[column][key] = value` of the source,
lifted to whole rows (each loop iteration assigns all four column cells of
one display key, so the four per-column dicts stay key-synchronized and
the table is one dict from display key to row).  Python 3.7+ dict
semantics: assigning an existing key replaces its value in place, keeping
the key's original position; a new key is appended. -/
def dictInsert (rows : List Row) (row : Row) : List Row :=
  if rows.any (fun r => r.key = row.key) then
    rows.map (fun r => if r.key = row.key then row else r)
  else rows ++ [row]

/-- The display key an identifier would contribute a row under, when it
parses: `mkKey` applied to the parse result. -/
def display_key (identifier : List Char) : Option (List Char) :=
  (parse_name identifier).map (fun rm => mkKey identifier rm.1 rm.2)

/-- The optimized-identifier loop (cli lines 216-263), accumulating into
the display-key-keyed table `acc` (which starts as the dict holding the
reference row).  `fetch` abstracts `get_latest_eval`, `none` modelling any
exception it raises.  A fetch failure is caught: a warning is logged and
the identifier skipped; every other failure (`parse_name`, or any step of
`mkRow`) is uncaught and aborts the whole run (`none`).  Each produced row
is dict-assigned, so a repeated display key overwrites the earlier row. -/
def buildRows (fetch : List Char → Option EvalRecord) (reference_eval : EvalRecord)
    (acc : List Row) : List (List Char) → Option (List Row)
  | [] => some acc
  | o :: os =>
    match parse_name o with
    | none => none
    | some (code_repo, model) =>
      match fetch o with
      | none => buildRows fetch reference_eval acc os
      | some ev =>
        match mkRow reference_eval o code_repo model ev with
        | none => none
        | some row => buildRows fetch reference_eval (dictInsert acc row) os

/-- One (dataset, mapping) iteration of `cli` (lines 176-267): the
reference side (parse, fetch, file-size table lookup — a `KeyError` when
the reference is absent — then the commit cell), followed by the
optimized loop over the dict seeded with the reference row.  The value is
the emitted table's row list in dict insertion order; `none` means the
run aborted before emitting the table.  The reference row's QoI is the
constant `100` and its file size comes from the table. -/
def build_report (fetch : List Char → Option EvalRecord) (reference : List Char)
    (optimizeds : List (List Char)) : Option (List Row) :=
  match parse_name reference with
  | none => none
  | some (code_repo, model) =>
    match fetch reference with
    | none => none
    | some reference_eval =>
      match REFERENCE_MODEL_FILE_SIZES.lookup reference with
      | none => none
      | some size =>
        match commit_cell reference_eval code_repo with
        | none => none
        | some commit =>
          buildRows fetch reference_eval
            (dictInsert [] ⟨mkKey reference code_repo model, 100, FileSize.mb size, commit⟩)
            optimizeds

/-! ## Helper lemmas -/

lemma qoiFoldAux (l : List (EvalResult × EvalResult)) (a b c : ℕ) :
    l.foldl
      (fun acc p =>
        (acc.1 + (if p.2.wer ≤ p.1.wer then 1 else 0),
         acc.2.1 + (if p.2.wer < p.1.wer then 1 else 0),
         acc.2.2 + 1)) (a, b, c) =
      (a + l.countP (fun p => decide (p.2.wer ≤ p.1.wer)),
       b + l.countP (fun p => decide (p.2.wer < p.1.wer)),
       c + l.length) := by
  induction l generalizing a b c with
  | nil => simp
  | cons x xs ih =>
    simp only [List.foldl_cons, ih, List.countP_cons, List.length_cons, Prod.mk.injEq]
    refine ⟨?_, ?_, ?_⟩ <;> first
      | omega
      | (simp only [decide_eq_true_eq]; split_ifs <;> omega)

/-- Lemma: `compute_quality_of_inference` in closed form: `none` exactly when the
positional pairing is empty, else the two rounded-then-scaled fractions of
the pair counts. -/
lemma compute_qoi_eq (reference optimized : List EvalResult) :
    compute_quality_of_inference reference optimized =
      if (reference.zip optimized).length = 0 then none
      else
        some
          (rround3 ((((reference.zip optimized).countP (fun p => decide (p.2.wer ≤ p.1.wer))) : ℚ) /
              (((reference.zip optimized).length : ℕ) : ℚ)) * 100,
           rround3 ((((reference.zip optimized).countP (fun p => decide (p.2.wer < p.1.wer))) : ℚ) /
              (((reference.zip optimized).length : ℕ) : ℚ)) * 100) := by
  simp only [compute_quality_of_inference, qoiFoldAux, Nat.zero_add]

lemma roundHalfEven_le (q : ℚ) : (roundHalfEven q : ℚ) ≤ q + 1/2 := by
  have h1 := Int.floor_le q
  have h2 := Int.lt_floor_add_one q
  simp only [roundHalfEven]
  split_ifs <;> push_cast <;> linarith

lemma le_roundHalfEven (q : ℚ) : q - 1/2 ≤ (roundHalfEven q : ℚ) := by
  have h1 := Int.floor_le q
  have h2 := Int.lt_floor_add_one q
  simp only [roundHalfEven]
  split_ifs with ha hb <;> push_cast <;> linarith

lemma roundHalfEven_mono {a b : ℚ} (hab : a ≤ b) :
    roundHalfEven a ≤ roundHalfEven b := by
  by_contra hlt
  push_neg at hlt
  have h1 : roundHalfEven b + 1 ≤ roundHalfEven a := hlt
  have hcast : (roundHalfEven b : ℚ) + 1 ≤ (roundHalfEven a : ℚ) := by exact_mod_cast h1
  have ub_a := roundHalfEven_le a
  have lb_b := le_roundHalfEven b
  have e1 : (roundHalfEven b : ℚ) = b - 1/2 := by linarith
  have e2 : (roundHalfEven a : ℚ) = a + 1/2 := by linarith
  have e3 : a = b := by linarith
  have e4 : roundHalfEven a = roundHalfEven b := by rw [e3]
  rw [e4, e1, e3] at e2
  linarith

lemma rround3_mono {a b : ℚ} (hab : a ≤ b) : rround3 a ≤ rround3 b := by
  have h := roundHalfEven_mono (mul_le_mul_of_nonneg_right hab (by norm_num : (0:ℚ) ≤ 1000))
  have h' : (roundHalfEven (a * 1000) : ℚ) ≤ (roundHalfEven (b * 1000) : ℚ) := by
    exact_mod_cast h
  simp only [rround3]
  linarith

lemma rround3_one : rround3 1 = 1 := by
  norm_num [rround3, roundHalfEven]

/-- Sample reference results: 7 examples, of which exactly 3 do not
regress (and 2 strictly improve) under `sampleOpt7`. -/
def sampleRef7 : List EvalResult := [⟨1⟩, ⟨1⟩, ⟨1⟩, ⟨0⟩, ⟨0⟩, ⟨0⟩, ⟨0⟩]

/-- Sample optimized results paired with `sampleRef7`. -/
def sampleOpt7 : List EvalResult := [⟨0⟩, ⟨0⟩, ⟨1⟩, ⟨1⟩, ⟨1⟩, ⟨1⟩, ⟨1⟩]

/-- Sample reference results where no pair regresses. -/
def sampleRef2 : List EvalResult := [⟨1⟩, ⟨2⟩]

/-- Sample optimized results paired with `sampleRef2`, all ≤. -/
def sampleOpt2 : List EvalResult := [⟨1⟩, ⟨0⟩]

/-- Sample reference results of length 3 (for the unequal-length case). -/
def sampleRef3 : List EvalResult := [⟨1⟩, ⟨2⟩, ⟨3⟩]

/-- Sample optimized results of length 1 (for the unequal-length case). -/
def sampleOpt1 : List EvalResult := [⟨0⟩]

/-! ## Claims -/

/-- C1: for every non-empty equal-length pair of per-example result
sequences, `compute_quality_of_inference` returns `no_regression` and
`improved` each computed as `round(matching_count / total_count, 3) * 100`:
the fraction is rounded to 3 decimal places first and scaled to the 0-100
range afterwards. -/
theorem qoi_c1_round_before_scale (reference optimized : List EvalResult)
    (hlen : reference.length = optimized.length) (hne : reference ≠ []) :
    compute_quality_of_inference reference optimized =
      some
        (rround3 ((((reference.zip optimized).countP (fun p => decide (p.2.wer ≤ p.1.wer))) : ℚ) /
            ((reference.length : ℕ) : ℚ)) * 100,
         rround3 ((((reference.zip optimized).countP (fun p => decide (p.2.wer < p.1.wer))) : ℚ) /
            ((reference.length : ℕ) : ℚ)) * 100) := by
  have hzip : (reference.zip optimized).length = reference.length := by
    rw [List.length_zip, hlen, min_self]
  have hne0 : reference.length ≠ 0 := fun h => hne (List.length_eq_zero.mp h)
  rw [compute_qoi_eq, hzip, if_neg hne0]

/-- C1 witness: 3 no-regressions (2 improvements) out of 7 yield
`42.9` (= 429/10) and `28.6` (= 143/5), not `42.86`/`28.57`. -/
theorem qoi_c1_witness :
    compute_quality_of_inference sampleRef7 sampleOpt7 = some (429/10, 143/5) := by
  rw [qoi_c1_round_before_scale sampleRef7 sampleOpt7 (by decide) (by decide)]
  rw [show ((sampleRef7.zip sampleOpt7).countP (fun p => decide (p.2.wer ≤ p.1.wer))) = 3 by decide]
  rw [show ((sampleRef7.zip sampleOpt7).countP (fun p => decide (p.2.wer < p.1.wer))) = 2 by decide]
  rw [show sampleRef7.length = 7 by decide]
  norm_num [rround3, roundHalfEven]

/-- C3: `compute_quality_of_inference` applied to empty input sequences
hits the `count == 0` division and raises `ZeroDivisionError` (`none`): it
never returns a default value. -/
theorem qoi_c3_empty_input_fails :
    compute_quality_of_inference ([] : List EvalResult) ([] : List EvalResult) = none := rfl

/-- C5: the `improved` percentage is always ≤ the `no_regression`
percentage for the same non-empty equal-length input. -/
theorem qoi_c5_improved_le_no_regression (reference optimized : List EvalResult)
    (hlen : reference.length = optimized.length) (hne : reference ≠ []) :
    ∃ nr imp, compute_quality_of_inference reference optimized = some (nr, imp) ∧
      imp ≤ nr := by
  rw [qoi_c1_round_before_scale reference optimized hlen hne]
  refine ⟨_, _, rfl, ?_⟩
  have hc : ((reference.zip optimized).countP (fun p => decide (p.2.wer < p.1.wer))) ≤
      ((reference.zip optimized).countP (fun p => decide (p.2.wer ≤ p.1.wer))) :=
    List.countP_mono_left fun x _ hx => by
      simp only [decide_eq_true_eq] at hx ⊢
      exact le_of_lt hx
  have hcQ : (((reference.zip optimized).countP (fun p => decide (p.2.wer < p.1.wer))) : ℚ) ≤
      (((reference.zip optimized).countP (fun p => decide (p.2.wer ≤ p.1.wer))) : ℚ) := by
    exact_mod_cast hc
  have hdiv : (((reference.zip optimized).countP (fun p => decide (p.2.wer < p.1.wer))) : ℚ) /
        ((reference.length : ℕ) : ℚ) ≤
      (((reference.zip optimized).countP (fun p => decide (p.2.wer ≤ p.1.wer))) : ℚ) /
        ((reference.length : ℕ) : ℚ) := by
    have hlenpos : (0 : ℚ) < ((reference.length : ℕ) : ℚ) := by
      exact_mod_cast List.length_pos.mpr hne
    exact (div_le_div_iff_of_pos_right hlenpos).mpr hcQ
  exact mul_le_mul_of_nonneg_right (rround3_mono hdiv) (by norm_num)

/-- C5 witness: on the 7-example sample, `improved ≤ no_regression`. -/
theorem qoi_c5_witness :
    ∃ nr imp, compute_quality_of_inference sampleRef7 sampleOpt7 = some (nr, imp) ∧
      imp ≤ nr :=
  qoi_c5_improved_le_no_regression sampleRef7 sampleOpt7 (by decide) (by decide)

/-- C9: when every optimized metric is ≤ its positionally corresponding
reference metric, `no_regression` is exactly 100. -/
theorem qoi_c9_all_le_gives_100 (reference optimized : List EvalResult)
    (hlen : reference.length = optimized.length) (hne : reference ≠ [])
    (hall : ∀ p ∈ reference.zip optimized, p.2.wer ≤ p.1.wer) :
    ∃ imp, compute_quality_of_inference reference optimized = some (100, imp) := by
  have hcount : ((reference.zip optimized).countP (fun p => decide (p.2.wer ≤ p.1.wer))) =
      (reference.zip optimized).length :=
    List.countP_eq_length.mpr fun a ha => decide_eq_true (hall a ha)
  have hzip : (reference.zip optimized).length = reference.length := by
    rw [List.length_zip, hlen, min_self]
  have hlen0 : ((reference.length : ℕ) : ℚ) ≠ 0 := by
    have := List.length_pos.mpr hne
    positivity
  refine ⟨rround3 ((((reference.zip optimized).countP
      (fun p => decide (p.2.wer < p.1.wer))) : ℚ) / ((reference.length : ℕ) : ℚ)) * 100, ?_⟩
  rw [qoi_c1_round_before_scale reference optimized hlen hne, hcount, hzip,
    div_self hlen0, rround3_one]
  norm_num

/-- C9 witness: both optimized examples do not regress, so
`no_regression = 100`. -/
theorem qoi_c9_witness :
    ∃ imp, compute_quality_of_inference sampleRef2 sampleOpt2 = some (100, imp) :=
  qoi_c9_all_le_gives_100 sampleRef2 sampleOpt2 (by decide) (by decide) (by decide)

/-- C10: given sequences of unequal lengths whose shorter one is
non-empty, `compute_quality_of_inference` does not fail, and it computes
the same result as on the first `min` elements of each sequence (the
trailing elements of the longer sequence are ignored). -/
theorem qoi_c10_truncates_to_min (reference optimized : List EvalResult)
    (hneq : reference.length ≠ optimized.length)
    (hmin : 0 < min reference.length optimized.length) :
    (compute_quality_of_inference reference optimized).isSome = true ∧
    compute_quality_of_inference reference optimized =
      compute_quality_of_inference
        (reference.take (min reference.length optimized.length))
        (optimized.take (min reference.length optimized.length)) := by
  have hzip : (reference.take (min reference.length optimized.length)).zip
        (optimized.take (min reference.length optimized.length)) =
      reference.zip optimized := by
    rw [List.zip_eq_zipWith, List.zip_eq_zipWith, ← List.take_zipWith]
    rw [← List.length_zipWith, List.take_length]
  have hlen : (reference.zip optimized).length ≠ 0 := by
    rw [List.length_zip]
    omega
  constructor
  · rw [compute_qoi_eq, if_neg hlen]
    rfl
  · rw [compute_qoi_eq, compute_qoi_eq, hzip]

/-- C10 witness: lengths 3 and 1; the result exists and equals the result
on the single leading pair. -/
theorem qoi_c10_witness :
    (compute_quality_of_inference sampleRef3 sampleOpt1).isSome = true ∧
    compute_quality_of_inference sampleRef3 sampleOpt1 =
      compute_quality_of_inference
        (sampleRef3.take (min sampleRef3.length sampleOpt1.length))
        (sampleOpt1.take (min sampleRef3.length sampleOpt1.length)) :=
  qoi_c10_truncates_to_min sampleRef3 sampleOpt1 (by decide) (by decide)

lemma splitOnChar_ne_nil (c : Char) (s : List Char) : splitOnChar c s ≠ [] := by
  cases s with
  | nil => simp [splitOnChar]
  | cons x xs =>
    simp only [splitOnChar]
    cases hs : splitOnChar c xs <;> simp [hs] <;> split <;> simp

lemma splitOnChar_of_not_mem {c : Char} {s : List Char} (h : c ∉ s) :
    splitOnChar c s = [s] := by
  induction s with
  | nil => rfl
  | cons x xs ih =>
    have hx : ¬(x = c) := fun he => h (he ▸ List.mem_cons_self x xs)
    have hxs : c ∉ xs := fun hm => h (List.mem_cons_of_mem _ hm)
    simp [splitOnChar, ih hxs, hx]

lemma splitOnChar_append {c : Char} {a : List Char} (b : List Char) (ha : c ∉ a) :
    splitOnChar c (a ++ c :: b) = a :: splitOnChar c b := by
  induction a with
  | nil =>
    simp only [List.nil_append]
    cases hb : splitOnChar c b with
    | nil => exact absurd hb (splitOnChar_ne_nil c b)
    | cons y ys => simp [splitOnChar, hb]
  | cons x xs ih =>
    have hx : ¬(x = c) := fun he => ha (he ▸ List.mem_cons_self x xs)
    have hxs : c ∉ xs := fun hm => ha (List.mem_cons_of_mem _ hm)
    simp only [List.cons_append, splitOnChar, List.append_eq, ih hxs, hx, if_false]

lemma splitOnChar_length (c : Char) (s : List Char) :
    (splitOnChar c s).length = s.count c + 1 := by
  induction s with
  | nil => rfl
  | cons x xs ih =>
    cases hs : splitOnChar c xs with
    | nil => exact absurd hs (splitOnChar_ne_nil c xs)
    | cons y ys =>
      rw [hs] at ih
      simp only [List.length_cons] at ih
      simp only [splitOnChar, hs, List.count_cons]
      by_cases hx : x = c
      · rw [if_pos hx, if_pos (by simp [hx])]
        simp only [List.length_cons]
        omega
      · have hne : ¬((x == c) = true) := by
          simp only [beq_iff_eq]
          exact hx
        rw [if_neg hx, if_neg hne]
        simp only [List.length_cons]
        omega

lemma parse_name_of_two_or_more (s : List Char) (h : 2 ≤ s.count '/') :
    parse_name s = none := by
  have hlen : 3 ≤ (splitOnChar '/' s).length := by
    rw [splitOnChar_length]
    omega
  cases hsp : splitOnChar '/' s with
  | nil => rw [hsp] at hlen; simp at hlen
  | cons x t =>
    cases t with
    | nil => rw [hsp] at hlen; simp at hlen
    | cons y t2 =>
      cases t2 with
      | nil => rw [hsp] at hlen; simp at hlen
      | cons z rest => simp [parse_name, hsp]

/-- C6: `parse_name` splits the identifier on `/`: zero slashes yield
(default repository, whole string); exactly one slash yields (first
segment, second segment); more than one slash raises `ValueError`.  The
three concrete examples of the claim are included. -/
theorem parse_name_c6 :
    (∀ s : List Char, '/' ∉ s → parse_name s = some (defaultCodeRepo, s)) ∧
    (∀ a b : List Char, '/' ∉ a → '/' ∉ b →
      parse_name (a ++ '/' :: b) = some (a, b)) ∧
    (∀ s : List Char, 2 ≤ s.count '/' → parse_name s = none) ∧
    parse_name (("WhisperKit/openai_whisper-tiny").toList) =
      some ((("WhisperKit").toList), (("openai_whisper-tiny").toList)) ∧
    parse_name (("openai_whisper-tiny").toList) =
      some ((("WhisperKit").toList), (("openai_whisper-tiny").toList)) ∧
    parse_name (("a/b/c").toList) = none := by
  refine ⟨fun s hs => ?_, fun a b ha hb => ?_, parse_name_of_two_or_more, by decide,
    by decide, by decide⟩
  · simp [parse_name, splitOnChar_of_not_mem hs]
  · simp [parse_name, splitOnChar_append b ha, splitOnChar_of_not_mem hb]

/-- C6 witness: a slash-free identifier, a one-slash identifier built from
slash-free segments, and a three-slash identifier. -/
theorem parse_name_c6_witness :
    parse_name (("xyz").toList) = some (defaultCodeRepo, ("xyz").toList) ∧
    parse_name ((("ab").toList) ++ '/' :: (("cd").toList)) =
      some ((("ab").toList), (("cd").toList)) ∧
    parse_name (("a/b/c/d").toList) = none :=
  ⟨parse_name_c6.1 _ (by decide), parse_name_c6.2.1 _ _ (by decide) (by decide),
    parse_name_c6.2.2.1 _ (by decide)⟩

/-- C7: `verify_apples_to_apples` compares the three metadata fields
pairwise and always returns normally, whatever the number of mismatches:
its result is exactly one logged warning per mismatching field (and it is
a total function into warning lists — no exception path exists). -/
theorem verify_c7_warnings_only (reference_eval optimized_eval : EvalRecord) :
    (verify_apples_to_apples reference_eval optimized_eval).length =
      (if reference_eval.metadata.inference_context.code_spec.code_commit_hash ≠
          optimized_eval.metadata.inference_context.code_spec.code_commit_hash
        then 1 else 0) +
      (if reference_eval.metadata.inference_context.os_spec.os_build_number ≠
          optimized_eval.metadata.inference_context.os_spec.os_build_number
        then 1 else 0) +
      (if reference_eval.metadata.whisperkittools_commit_hash ≠
          optimized_eval.metadata.whisperkittools_commit_hash
        then 1 else 0) := by
  unfold verify_apples_to_apples
  split_ifs <;> simp

/-- C2 counterexample: the identifier `"m_MBx"` is absent from the table
and its trailing suffix `"MBx"` is not of the form `<N>MB`, so the claim
says the file size renders as `"N/A"` without failing; but the code takes
the `"MB" in suffix` branch and `int("x")` raises `ValueError` (`none`),
aborting the run. -/
theorem file_size_c2_counterexample :
    resolve_file_size (("m_MBx").toList) = none ∧
    file_size_claimed (("m_MBx").toList) = FileSize.na := by
  constructor <;> decide

/-- C2 amended: table hits use the table value, and a suffix without any
occurrence of `"MB"` renders as `"N/A"`; but when the trailing suffix
merely contains `"MB"` somewhere, the code strips every `"MB"` occurrence
and parses the remainder with `int`, so a non-numeric remainder raises
`ValueError` and aborts instead of rendering `"N/A"`. -/
theorem file_size_c2_amended (optimized : List Char) :
    (∀ n, REFERENCE_MODEL_FILE_SIZES.lookup optimized = some n →
      resolve_file_size optimized = some (FileSize.mb n)) ∧
    (REFERENCE_MODEL_FILE_SIZES.lookup optimized = none →
      containsSub mbTag ((splitOnChar '_' optimized).getLastD []) = false →
      resolve_file_size optimized = some FileSize.na) ∧
    (REFERENCE_MODEL_FILE_SIZES.lookup optimized = none →
      containsSub mbTag ((splitOnChar '_' optimized).getLastD []) = true →
      resolve_file_size optimized =
        (parseInt (replaceSub mbTag [] ((splitOnChar '_' optimized).getLastD []))).map
          FileSize.mb) := by
  refine ⟨fun n hn => ?_, fun hn hmb => ?_, fun hn hmb => ?_⟩
  · simp [resolve_file_size, hn]
  · simp only [resolve_file_size, hn, hmb]
    simp
  · simp only [resolve_file_size, hn, hmb]
    simp

/-- C2 amended witness: a table hit, an `"MB"`-free suffix rendering as
`"N/A"`, and a well-formed `_600MB` suffix parsing to 600. -/
theorem file_size_c2_amended_witness :
    resolve_file_size (("WhisperKit/openai_whisper-tiny").toList) = some (FileSize.mb 66) ∧
    resolve_file_size (("Other/model_v2").toList) = some FileSize.na ∧
    resolve_file_size (("WhisperKit/model_600MB").toList) = some (FileSize.mb 600) :=
  ⟨(file_size_c2_amended _).1 66 (by decide),
   (file_size_c2_amended _).2.1 (by decide) (by decide),
   by
     rw [(file_size_c2_amended (("WhisperKit/model_600MB").toList)).2.2 (by decide) (by decide)]
     decide⟩

/-- C8: when the reference identifier is absent from the static file-size
table, the `KeyError` of `REFERENCE_MODEL_FILE_SIZES[reference]`
propagates and the run aborts before any table is emitted for the
mapping. -/
theorem build_report_c8_missing_reference_size
    (fetch : List Char → Option EvalRecord) (reference : List Char)
    (optimizeds : List (List Char))
    (hlookup : REFERENCE_MODEL_FILE_SIZES.lookup reference = none) :
    build_report fetch reference optimizeds = none := by
  cases hp : parse_name reference with
  | none => simp [build_report, hp]
  | some rm =>
    obtain ⟨code_repo, model⟩ := rm
    cases hf : fetch reference with
    | none => simp [build_report, hp, hf]
    | some reference_eval => simp [build_report, hp, hf, hlookup]

/-- Metadata shared by the sample evaluation records. -/
def sampleMeta : EvalMetadata :=
  ⟨⟨⟨some (("abc1234def0").toList)⟩, ⟨some (("23A344").toList)⟩⟩,
   some (("wktcommit").toList)⟩

/-- A sample evaluation record used as the reference record. -/
def sampleEvalA : EvalRecord := ⟨[⟨1⟩, ⟨2⟩], sampleMeta⟩

/-- A sample evaluation record used as an optimized record. -/
def sampleEvalB : EvalRecord := ⟨[⟨0⟩, ⟨3⟩], sampleMeta⟩

/-- C8 witness: `"Foo/bar"` is not in the file-size table, and the report
for a mapping with that reference aborts even though every fetch
succeeds. -/
theorem build_report_c8_witness :
    REFERENCE_MODEL_FILE_SIZES.lookup (("Foo/bar").toList) = none ∧
    build_report (fun _ => some sampleEvalA) (("Foo/bar").toList)
      [(("WhisperKit/openai_whisper-tiny").toList)] = none :=
  ⟨by decide, build_report_c8_missing_reference_size _ _ _ (by decide)⟩

/-- Assigning a fresh display key appends the row at the end of the
dict. -/
lemma dictInsert_of_fresh (rows : List Row) (row : Row)
    (h : ∀ r ∈ rows, r.key ≠ row.key) :
    dictInsert rows row = rows ++ [row] := by
  have hany : rows.any (fun r => decide (r.key = row.key)) = false := by
    rw [List.any_eq_false]
    intro r hr
    simp only [decide_eq_true_eq]
    exact h r hr
  simp [dictInsert, hany]

/-- A successfully processed identifier contributes a row under its
display key. -/
lemma processOpt_display_key (fetch : List Char → Option EvalRecord)
    (reference_eval : EvalRecord) (o : List Char) (row : Row)
    (h : processOpt fetch reference_eval o = some row) :
    display_key o = some row.key := by
  cases hp : parse_name o with
  | none => rw [processOpt, hp] at h; exact absurd h (by simp)
  | some rm =>
    obtain ⟨code_repo, model⟩ := rm
    rw [processOpt, hp] at h
    cases hf : fetch o with
    | none => rw [hf] at h; exact absurd h (by simp)
    | some ev =>
      rw [hf] at h
      simp only [mkRow] at h
      cases hq : compute_quality_of_inference reference_eval.results ev.results with
      | none => rw [hq] at h; exact absurd h (by simp)
      | some qoi =>
        rw [hq] at h
        cases hcc : commit_cell ev code_repo with
        | none => rw [hcc] at h; exact absurd h (by simp)
        | some commit =>
          rw [hcc] at h
          cases hfs : resolve_file_size o with
          | none => rw [hfs] at h; exact absurd h (by simp)
          | some fs =>
            rw [hfs] at h
            simp only [Option.some.injEq] at h
            rw [display_key, hp, ← h]
            rfl

/-- When every identifier parses, every successfully fetched identifier
processes without error, and the produced display keys are fresh for the
accumulated dict and pairwise distinct, the optimized loop succeeds and
appends exactly one row per fetch-succeeding identifier, in order. -/
lemma buildRows_eq (fetch : List Char → Option EvalRecord) (reference_eval : EvalRecord)
    (os : List (List Char)) (acc : List Row)
    (hparse : ∀ o ∈ os, (parse_name o).isSome = true)
    (hproc : ∀ o ∈ os, (fetch o).isSome = true →
      (processOpt fetch reference_eval o).isSome = true)
    (hdisj : ∀ r ∈ acc, ∀ o ∈ os, ∀ row,
      processOpt fetch reference_eval o = some row → r.key ≠ row.key)
    (hpw : os.Pairwise (fun a b => ∀ ra rb, processOpt fetch reference_eval a = some ra →
      processOpt fetch reference_eval b = some rb → ra.key ≠ rb.key)) :
    buildRows fetch reference_eval acc os =
      some (acc ++ (os.filter (fun o => (fetch o).isSome)).filterMap
        (processOpt fetch reference_eval)) := by
  induction os generalizing acc with
  | nil => simp [buildRows]
  | cons o os ih =>
    have hpo := hparse o (List.mem_cons_self o os)
    obtain ⟨rm, hp⟩ := Option.isSome_iff_exists.mp hpo
    obtain ⟨code_repo, model⟩ := rm
    have hparse' : ∀ x ∈ os, (parse_name x).isSome = true :=
      fun x hx => hparse x (List.mem_cons_of_mem _ hx)
    have hproc' : ∀ x ∈ os, (fetch x).isSome = true →
        (processOpt fetch reference_eval x).isSome = true :=
      fun x hx => hproc x (List.mem_cons_of_mem _ hx)
    have hpw' := hpw.of_cons
    cases hf : fetch o with
    | none =>
      have hdisj' : ∀ r ∈ acc, ∀ x ∈ os, ∀ row,
          processOpt fetch reference_eval x = some row → r.key ≠ row.key :=
        fun r hr x hx => hdisj r hr x (List.mem_cons_of_mem _ hx)
      simp only [buildRows, hp, hf]
      rw [ih acc hparse' hproc' hdisj' hpw']
      simp [List.filter_cons, hf]
    | some ev =>
      have hpo_eq : processOpt fetch reference_eval o =
          mkRow reference_eval o code_repo model ev := by
        simp [processOpt, hp, hf]
      have hps := hproc o (List.mem_cons_self o os) (by rw [hf]; rfl)
      rw [hpo_eq] at hps
      obtain ⟨row, hrow⟩ := Option.isSome_iff_exists.mp hps
      have hrow' : processOpt fetch reference_eval o = some row := by
        rw [hpo_eq, hrow]
      have hins : dictInsert acc row = acc ++ [row] :=
        dictInsert_of_fresh acc row
          (fun r hr => hdisj r hr o (List.mem_cons_self o os) row hrow')
      have hdisj' : ∀ r ∈ acc ++ [row], ∀ x ∈ os, ∀ rowx,
          processOpt fetch reference_eval x = some rowx → r.key ≠ rowx.key := by
        intro r hr x hx rowx hrowx
        rcases List.mem_append.mp hr with hr | hr
        · exact hdisj r hr x (List.mem_cons_of_mem _ hx) rowx hrowx
        · rw [List.mem_singleton.mp hr]
          exact List.rel_of_pairwise_cons hpw hx row rowx hrow' hrowx
      simp only [buildRows, hp, hf, hrow]
      rw [hins, ih (acc ++ [row]) hparse' hproc' hdisj' hpw']
      simp [List.filter_cons, hf, List.filterMap_cons, hrow']

/-- The reference identifier of the C4 counterexample. -/
def c4Reference : List Char := ("WhisperKit/openai_whisper-tiny").toList

/-- An optimized identifier whose display key collides with the
reference's: the unqualified `openai_whisper-tiny` parses to the same
repository and model, hence renders the same label `[tiny](...) `, while
missing the file-size table (its key there is qualified) and carrying no
`MB` suffix. -/
def c4Clobber : List Char := ("openai_whisper-tiny").toList

/-- The optimized identifier of the C4 counterexample whose fetch
raises. -/
def c4Bad : List Char := ("WhisperKit/openai_whisper-bogus").toList

/-- The optimized identifiers of the C4 counterexample. -/
def c4Optimizeds : List (List Char) := [c4Clobber, c4Bad]

/-- The evaluation record of the C4 counterexample, used for both the
reference and the colliding optimized identifier. -/
def c4Eval : EvalRecord := ⟨[⟨1⟩], sampleMeta⟩

/-- The fetch oracle of the C4 counterexample: only `c4Bad` raises. -/
def c4Fetch : List Char → Option EvalRecord := fun s =>
  if s = c4Bad then none else some c4Eval

/-- The shared display key of the reference row and the clobbering row. -/
def c4Key : List Char :=
  mkKey c4Reference (("WhisperKit").toList) (("openai_whisper-tiny").toList)

/-- The commit cell of the C4 counterexample rows. -/
def c4Commit : List Char :=
  ("[Link](https://github.com/argmaxinc/WhisperKit/commit/abc1234)").toList

/-- C4 counterexample: one optimized fetch raises and every other step
succeeds — the reference parses, fetches, has table file size 66, and the
other optimized identifier fetches and processes — yet the emitted table
is a single row whose file size is `"N/A"`: the unqualified
`openai_whisper-tiny` renders the same display label as the reference, so
its dict assignment overwrites the reference row (file size 66 → `"N/A"`).
The claim's "every other row of the mapping still appears" is false
here. -/
theorem build_report_c4_counterexample :
    c4Fetch c4Bad = none ∧
    c4Bad ∈ c4Optimizeds ∧
    REFERENCE_MODEL_FILE_SIZES.lookup c4Reference = some 66 ∧
    (∀ o ∈ c4Optimizeds, o ≠ c4Bad →
      (c4Fetch o).isSome = true ∧ (processOpt c4Fetch c4Eval o).isSome = true) ∧
    build_report c4Fetch c4Reference c4Optimizeds =
      some [⟨c4Key, 100, FileSize.na, c4Commit⟩] := by
  refine ⟨by decide, by decide, by decide, by decide, ?_⟩
  have hq : compute_quality_of_inference c4Eval.results c4Eval.results = some (100, 0) := by
    rw [compute_qoi_eq]
    rw [show ((c4Eval.results.zip c4Eval.results).countP
      (fun p => decide (p.2.wer ≤ p.1.wer))) = 1 by decide]
    rw [show ((c4Eval.results.zip c4Eval.results).countP
      (fun p => decide (p.2.wer < p.1.wer))) = 0 by decide]
    rw [show (c4Eval.results.zip c4Eval.results).length = 1 by decide]
    norm_num [rround3, roundHalfEven]
  have hrow : mkRow c4Eval c4Clobber (("WhisperKit").toList)
      (("openai_whisper-tiny").toList) c4Eval =
      some ⟨c4Key, 100, FileSize.na, c4Commit⟩ := by
    rw [mkRow, hq]
    rw [show commit_cell c4Eval (("WhisperKit").toList) = some c4Commit by decide]
    rw [show resolve_file_size c4Clobber = some FileSize.na by decide]
    rw [show mkKey c4Clobber (("WhisperKit").toList) (("openai_whisper-tiny").toList) =
      c4Key by decide]
  have h1 : parse_name c4Reference =
      some ((("WhisperKit").toList), (("openai_whisper-tiny").toList)) := by decide
  have h2 : c4Fetch c4Reference = some c4Eval := by decide
  have h3 : REFERENCE_MODEL_FILE_SIZES.lookup c4Reference = some 66 := by decide
  have h4 : commit_cell c4Eval (("WhisperKit").toList) = some c4Commit := by decide
  have h5 : parse_name c4Clobber =
      some ((("WhisperKit").toList), (("openai_whisper-tiny").toList)) := by decide
  have h6 : c4Fetch c4Clobber = some c4Eval := by decide
  have h7 : parse_name c4Bad =
      some ((("WhisperKit").toList), (("openai_whisper-bogus").toList)) := by decide
  have h8 : c4Fetch c4Bad = none := by decide
  simp only [build_report, h1, h2, h3, h4]
  rw [show (dictInsert [] ⟨mkKey c4Reference (("WhisperKit").toList)
      (("openai_whisper-tiny").toList), 100, FileSize.mb 66, c4Commit⟩ : List Row) =
    [⟨c4Key, 100, FileSize.mb 66, c4Commit⟩] from by simp [dictInsert, c4Key]]
  show buildRows c4Fetch c4Eval [⟨c4Key, 100, FileSize.mb 66, c4Commit⟩] [c4Clobber, c4Bad] =
    some [⟨c4Key, 100, FileSize.na, c4Commit⟩]
  simp only [buildRows, h5, h6, hrow]
  rw [show dictInsert [⟨c4Key, 100, FileSize.mb 66, c4Commit⟩]
      ⟨c4Key, 100, FileSize.na, c4Commit⟩ =
    [⟨c4Key, 100, FileSize.na, c4Commit⟩] from by simp [dictInsert]]
  simp only [buildRows, h7, h8]

/-- C4 amended: if fetching the evaluation record of one optimized
identifier raises while everything else succeeds, and the display keys of
the reference and of the optimized identifiers are pairwise distinct (the
dict accumulation overwrites rows sharing a display key), then that
identifier is skipped (with a logged warning) and contributes no row,
while the reference row and every other successfully fetched optimized
row still appear in the emitted table; the report generation does not
abort. -/
theorem build_report_c4_skips_failed_fetch
    (fetch : List Char → Option EvalRecord)
    (reference code_repo model : List Char) (reference_eval : EvalRecord)
    (size : ℤ) (commit : List Char)
    (optimizeds : List (List Char)) (bad : List Char)
    (hparse_ref : parse_name reference = some (code_repo, model))
    (hfetch_ref : fetch reference = some reference_eval)
    (hsize : REFERENCE_MODEL_FILE_SIZES.lookup reference = some size)
    (hcommit : commit_cell reference_eval code_repo = some commit)
    (hmem : bad ∈ optimizeds)
    (hbad : fetch bad = none)
    (hparse : ∀ o ∈ optimizeds, (parse_name o).isSome = true)
    (hproc : ∀ o ∈ optimizeds, (fetch o).isSome = true →
      (processOpt fetch reference_eval o).isSome = true)
    (hkeys : ((reference :: optimizeds).map display_key).Nodup) :
    ∃ rows,
      build_report fetch reference optimizeds =
        some (⟨mkKey reference code_repo model, 100, FileSize.mb size, commit⟩ :: rows) ∧
      rows = (optimizeds.filter (fun o => (fetch o).isSome)).filterMap
          (processOpt fetch reference_eval) ∧
      bad ∉ optimizeds.filter (fun o => (fetch o).isSome) ∧
      (∀ o ∈ optimizeds, (fetch o).isSome = true →
        ∀ row, processOpt fetch reference_eval o = some row → row ∈ rows) := by
  have hkeys' : (reference :: optimizeds).Pairwise
      (fun a b => display_key a ≠ display_key b) := by
    exact List.pairwise_map.mp hkeys
  have hrefkey : display_key reference = some (mkKey reference code_repo model) := by
    rw [display_key, hparse_ref]
    rfl
  have hdisj : ∀ r ∈ [(⟨mkKey reference code_repo model, 100, FileSize.mb size,
      commit⟩ : Row)], ∀ o ∈ optimizeds, ∀ row,
      processOpt fetch reference_eval o = some row → r.key ≠ row.key := by
    intro r hr o ho row hrow
    rw [List.mem_singleton.mp hr]
    intro hkeq
    have hkeq' : mkKey reference code_repo model = row.key := hkeq
    have hok := processOpt_display_key fetch reference_eval o row hrow
    have hne := List.rel_of_pairwise_cons hkeys' ho
    apply hne
    rw [hrefkey, hok, hkeq']
  have hpw : optimizeds.Pairwise (fun a b => ∀ ra rb,
      processOpt fetch reference_eval a = some ra →
      processOpt fetch reference_eval b = some rb → ra.key ≠ rb.key) := by
    refine hkeys'.of_cons.imp ?_
    intro a b hab ra rb hra hrb hkeq
    apply hab
    rw [processOpt_display_key fetch reference_eval a ra hra,
      processOpt_display_key fetch reference_eval b rb hrb, hkeq]
  refine ⟨_, ?_, rfl, ?_, ?_⟩
  · simp only [build_report, hparse_ref, hfetch_ref, hsize, hcommit]
    rw [show (dictInsert [] ⟨mkKey reference code_repo model, 100, FileSize.mb size,
        commit⟩ : List Row) = [⟨mkKey reference code_repo model, 100, FileSize.mb size,
        commit⟩] from by simp [dictInsert]]
    rw [buildRows_eq fetch reference_eval optimizeds _ hparse hproc hdisj hpw]
    rfl
  · intro hmemf
    have hb := (List.mem_filter.mp hmemf).2
    rw [hbad] at hb
    simp at hb
  · intro o ho hf row hrow
    exact List.mem_filterMap.mpr ⟨o, List.mem_filter.mpr ⟨ho, hf⟩, hrow⟩

/-- The fetch oracle of the C4 witness: the reference and two optimized
identifiers fetch successfully; `WhisperKit/openai_whisper-bad` raises. -/
def sampleFetch : List Char → Option EvalRecord := fun s =>
  if s = ("WhisperKit/openai_whisper-tiny").toList then some sampleEvalA
  else if s = ("WhisperKit/openai_whisper-bad").toList then none
  else some sampleEvalB

/-- The optimized identifiers of the C4 witness. -/
def sampleOptimizeds : List (List Char) :=
  [("WhisperKit/openai_whisper-base").toList,
   ("WhisperKit/openai_whisper-bad").toList,
   ("WhisperKit/openai_whisper-small").toList]

/-- C4 witness: with the middle optimized identifier's fetch raising and
all four display keys distinct, the report contains the reference row
first and one row per other identifier, and the failing identifier
contributes no row. -/
theorem build_report_c4_witness :
    ∃ rows,
      build_report sampleFetch (("WhisperKit/openai_whisper-tiny").toList) sampleOptimizeds =
        some (⟨mkKey (("WhisperKit/openai_whisper-tiny").toList) (("WhisperKit").toList)
            (("openai_whisper-tiny").toList), 100, FileSize.mb 66,
            ("[Link](https://github.com/argmaxinc/WhisperKit/commit/abc1234)").toList⟩ :: rows) ∧
      rows = (sampleOptimizeds.filter (fun o => (sampleFetch o).isSome)).filterMap
          (processOpt sampleFetch sampleEvalA) ∧
      (("WhisperKit/openai_whisper-bad").toList) ∉
        sampleOptimizeds.filter (fun o => (sampleFetch o).isSome) ∧
      (∀ o ∈ sampleOptimizeds, (sampleFetch o).isSome = true →
        ∀ row, processOpt sampleFetch sampleEvalA o = some row → row ∈ rows) :=
  build_report_c4_skips_failed_fetch sampleFetch
    (("WhisperKit/openai_whisper-tiny").toList) (("WhisperKit").toList)
    (("openai_whisper-tiny").toList) sampleEvalA 66
    (("[Link](https://github.com/argmaxinc/WhisperKit/commit/abc1234)").toList)
    sampleOptimizeds (("WhisperKit/openai_whisper-bad").toList)
    (by decide) (by decide) (by decide) (by decide) (by decide) (by decide)
    (by decide) (by decide) (by decide)

end GenerateReadme
